import Mathlib

/-!
Verification of the deadline-driven aggregation and quorum engine of the
rest_server repository (TypeScript).  The definitions below are a shallow
embedding of `src/services/deadline-scheduler.ts`, `src/utils/config.ts`,
`src/utils/order-config.ts`, `src/db/repository.ts` and the relevant routes
of `src/api/server.ts`.  JavaScript numbers that can be `NaN` are modelled
with `Option Int` (a `none` stands for `NaN`; every comparison against `NaN`
is `false`, which the embedding reproduces where it matters).
-/

namespace RestServer

/-! ### JavaScript numeric parsing

`Number(s)` (used by `toMinutes` via `split(':').map(Number)`) converts the
whole trimmed string, yielding `0` for the empty string and `NaN` when any
non-digit remains.  `parseInt(s, 10)` (used by `config.ts`) consumes an
optional sign and the longest leading digit run, yielding `NaN` when there is
no digit.  Only integral values occur in this code base, so both are modelled
into `Option Int`. -/

def digitsVal (cs : List Char) : Nat :=
  cs.foldl (fun a c => a * 10 + (c.toNat - 48)) 0

def allDigitsVal (cs : List Char) : Option Nat :=
  if cs.isEmpty then none
  else if cs.all Char.isDigit then some (digitsVal cs) else none

def leadingDigitsVal (cs : List Char) : Option Nat :=
  let ds := cs.takeWhile Char.isDigit
  if ds.isEmpty then none else some (digitsVal ds)

/-- Whitespace as trimmed by JavaScript string-to-number conversion. -/
def wsChar (c : Char) : Bool :=
  c = ' ' || c = '\t' || c = '\n' || c = '\r'

def trimChars (cs : List Char) : List Char :=
  ((cs.dropWhile wsChar).reverse.dropWhile wsChar).reverse

/-- `String.split(sep)` of JavaScript on a single-character separator
(`"".split(':')` is `[""]`, separators at the ends produce empty pieces). -/
def splitOnChar (sep : Char) : List Char → List (List Char)
  | [] => [[]]
  | c :: cs =>
    let r := splitOnChar sep cs
    if c = sep then [] :: r
    else
      match r with
      | [] => [[c]]
      | g :: gs => (c :: g) :: gs

/-- Model of JavaScript `Number(s)` restricted to integral strings: the whole
trimmed string must be digits (after an optional sign), the empty string is
`0`, anything else is `NaN` (`none`). -/
def jsNumber (cs : List Char) : Option Int :=
  let t := trimChars cs
  if t.isEmpty then some 0
  else
    match t with
    | '-' :: rest => (allDigitsVal rest).map (fun n => -(n : Int))
    | '+' :: rest => (allDigitsVal rest).map (fun n => (n : Int))
    | rest => (allDigitsVal rest).map (fun n => (n : Int))

/-- Model of JavaScript `parseInt(s, 10)`: optional sign, then the longest
leading digit run; `NaN` (`none`) when no digit is found. -/
def parseIntJs (s : String) : Option Int :=
  match trimChars s.data with
  | '-' :: rest => (leadingDigitsVal rest).map (fun n => -(n : Int))
  | '+' :: rest => (leadingDigitsVal rest).map (fun n => (n : Int))
  | rest => (leadingDigitsVal rest).map (fun n => (n : Int))

/-! ### Slot configuration (`src/utils/order-config.ts`, `src/utils/config.ts`) -/

structure SlotDef where
  id : String
  time : String
deriving DecidableEq, Repr

/-- `ORDER_CONFIG.orderLeadMinutes` (order-config.ts). -/
def orderLeadMinutes : Int := 150

/-- `ORDER_CONFIG.lobbyLeadMinutes` (order-config.ts); the scheduler reads it
through `ORDER_CONFIG.lobbyLeadMinutes ?? ORDER_CONFIG.orderLeadMinutes`,
which is the identity here because the field is present. -/
def lobbyLeadMinutes : Int := 150

/-- `ORDER_CONFIG.deliverySlots` (order-config.ts). -/
def deliverySlots : List SlotDef :=
  [⟨"13:00", "13:00"⟩, ⟨"18:45", "18:45"⟩, ⟨"23:00", "23:00"⟩]

/-- JavaScript `a || b` on a possibly-`NaN` number: `NaN` and `0` are falsy.
Used by `parseInt(env.MIN_LOBBY_PARTICIPANTS || '1', 10) || 1`. -/
def jsOrInt (v : Option Int) (d : Int) : Int :=
  match v with
  | some n => if n = 0 then d else n
  | none => d

/-- JavaScript `s || d` on a possibly-undefined string: `undefined` and the
empty string are falsy. -/
def jsOrStr (v : Option String) (d : String) : String :=
  match v with
  | some s => if s = "" then d else s
  | none => d

/-- `config.minLobbyParticipants` (config.ts lines 71-74):
`Math.max(1, parseInt(env.MIN_LOBBY_PARTICIPANTS || '1', 10) || 1)`,
as a function of the raw `MIN_LOBBY_PARTICIPANTS` environment value. -/
def minLobbyParticipantsConfig (envVal : Option String) : Int :=
  max 1 (jsOrInt (parseIntJs (jsOrStr envVal "1")) 1)

/-- The scheduler-level constant (deadline-scheduler.ts line 26):
`ORDER_CONFIG.minLobbyParticipants ?? 1`; the config field is always a
number, so the `?? 1` is the identity. -/
def schedulerMinLobbyParticipants (envVal : Option String) : Int :=
  minLobbyParticipantsConfig envVal

/-! ### Slot deadline arithmetic (deadline-scheduler.ts lines 13-33) -/

/-- `toMinutes` (deadline-scheduler.ts lines 13-16):
`const [hours, minutes] = time.split(':').map(Number); return hours*60+minutes`.
A missing or non-numeric component makes the result `NaN`, modelled `none`. -/
def toMinutes (time : String) : Option Int :=
  match (splitOnChar ':' time.data).map jsNumber with
  | [] => none
  | [_] => none
  | h? :: m? :: _ =>
    match h?, m? with
    | some h, some m => some (h * 60 + m)
    | _, _ => none

/-- `Math.max(slotMinutes - leadMinutes, 0)`. -/
def deadlineMinutesOf (slotMinutes leadMinutes : Int) : Int :=
  max (slotMinutes - leadMinutes) 0

/-- The shared shape of `isDeadlinePassedForSlot` and `isLobbyDeadlinePassed`:
`nowMinutes > Math.max(toMinutes(slotId) - lead, 0)`.  When `toMinutes` is
`NaN` the JavaScript comparison is `false`. -/
def isPastDeadlineWithLead (slotId : String) (lead nowMinutes : Int) : Bool :=
  match toMinutes slotId with
  | some s => decide (nowMinutes > deadlineMinutesOf s lead)
  | none => false

/-- `isDeadlinePassedForSlot` (deadline-scheduler.ts lines 19-23). -/
def isDeadlinePassedForSlot (slotId : String) (nowMinutes : Int) : Bool :=
  isPastDeadlineWithLead slotId orderLeadMinutes nowMinutes

/-- `isLobbyDeadlinePassed` (deadline-scheduler.ts lines 29-33). -/
def isLobbyDeadlinePassed (slotId : String) (nowMinutes : Int) : Bool :=
  isPastDeadlineWithLead slotId lobbyLeadMinutes nowMinutes

/-! ### Data model (`src/db/repository.ts`, `src/types`, migrations) -/

inductive OrderStatus
  | pending | confirmed | restaurant_confirmed | preparing | ready
  | delivered | cancelled
deriving DecidableEq, Repr

inductive GroupOrderStatus
  | pending_restaurant | accepted | rejected
deriving DecidableEq, Repr

/-- A row of `orders`.  `created_at_date` stands for SQL `date(created_at)`
(only the date part of the timestamp is ever consulted). -/
structure Order where
  id : Nat
  user_id : Nat
  restaurant_id : Nat
  building_id : Nat
  items : String
  total_price : Int
  delivery_slot : String
  order_date : Option String
  created_at_date : String
  status : OrderStatus
deriving DecidableEq, Repr

/-- A row of `group_orders` (migration 007). -/
structure GroupOrder where
  id : Nat
  restaurant_id : Nat
  building_id : Nat
  delivery_slot : String
  order_date : String
  status : GroupOrderStatus
deriving DecidableEq, Repr

structure Restaurant where
  id : Nat
  chat_id : Int
  name : String
deriving DecidableEq, Repr

structure Building where
  id : Nat
  name : String
deriving DecidableEq, Repr

structure User where
  id : Nat
  telegram_user_id : Int
deriving DecidableEq, Repr

/-- A row of `slot_lobby_reservations`. -/
structure Reservation where
  building_id : Nat
  restaurant_id : Nat
  delivery_slot : String
  order_date : String
  user_id : Nat
deriving DecidableEq, Repr

/-- The relational store visible to the scheduler and the API handlers.
`restaurantBuildings` is the `restaurant_buildings` link table (as
(building_id, restaurant_id) rows); `nextGroupOrderId` models the
`AUTOINCREMENT` row id of `group_orders`. -/
structure Store where
  orders : List Order
  groupOrders : List GroupOrder
  restaurants : List Restaurant
  buildings : List Building
  reservations : List Reservation
  users : List User
  restaurantBuildings : List (Nat × Nat)
  nextGroupOrderId : Nat
deriving DecidableEq, Repr

/-- The SQL date filter used throughout the repository:
`(order_date = ? OR (order_date IS NULL AND date(created_at) = ?))`. -/
def matchesDate (o : Order) (d : String) : Bool :=
  decide (o.order_date = some d) ||
    (decide (o.order_date = none) && decide (o.created_at_date = d))

/-- Whether a status belongs to the active set used by
`OrderRepository.findActiveByUserAndSlot`:
`('pending','confirmed','restaurant_confirmed','preparing','ready')`. -/
def isActiveStatus : OrderStatus → Bool
  | .pending => true
  | .confirmed => true
  | .restaurant_confirmed => true
  | .preparing => true
  | .ready => true
  | .delivered => false
  | .cancelled => false

/-- Row predicate of `OrderRepository.findPendingForGroup`. -/
def pendingForGroupRow (deliverySlot : String) (buildingId restaurantId : Nat)
    (orderDate : String) (o : Order) : Bool :=
  decide (o.delivery_slot = deliverySlot) && decide (o.building_id = buildingId) &&
    decide (o.restaurant_id = restaurantId) && decide (o.status = .pending) &&
    matchesDate o orderDate

/-- `OrderRepository.findPendingForGroup`: the pending orders of one
(restaurant, building, slot, date) key.  The SQL `ORDER BY created_at DESC`
only permutes the rows and is not modelled; no claim depends on row order. -/
def findPendingForGroup (orders : List Order) (deliverySlot : String)
    (buildingId restaurantId : Nat) (orderDate : String) : List Order :=
  orders.filter (pendingForGroupRow deliverySlot buildingId restaurantId orderDate)

/-- Row predicate of `OrderRepository.findActiveByUserAndSlot`. -/
def activeByUserAndSlotRow (userId buildingId restaurantId : Nat)
    (deliverySlot orderDate : String) (o : Order) : Bool :=
  decide (o.user_id = userId) && decide (o.building_id = buildingId) &&
    decide (o.restaurant_id = restaurantId) && decide (o.delivery_slot = deliverySlot) &&
    isActiveStatus o.status && matchesDate o orderDate

/-- `OrderRepository.findActiveByUserAndSlot` (`... LIMIT 1`).  The SQL
`ORDER BY created_at DESC` only selects which matching row is returned;
modelled as the first matching row. -/
def findActiveByUserAndSlot (orders : List Order) (userId buildingId restaurantId : Nat)
    (deliverySlot orderDate : String) : Option Order :=
  orders.find? (activeByUserAndSlotRow userId buildingId restaurantId deliverySlot orderDate)

/-- `OrderRepository.updateStatus`: `UPDATE orders SET status = ? WHERE id = ?`. -/
def updateOrderStatus (orders : List Order) (id : Nat) (status : OrderStatus) : List Order :=
  orders.map (fun o => if o.id = id then { o with status := status } else o)

/-- Key predicate on `group_orders` shared by
`GroupOrderRepository.findByRestaurantAndSlot` and the uniqueness argument. -/
def groupOrderKeyMatch (restaurantId buildingId : Nat) (deliverySlot orderDate : String)
    (g : GroupOrder) : Bool :=
  decide (g.restaurant_id = restaurantId) && decide (g.building_id = buildingId) &&
    decide (g.delivery_slot = deliverySlot) && decide (g.order_date = orderDate)

/-- `GroupOrderRepository.findByRestaurantAndSlot`. -/
def findByRestaurantAndSlot (gos : List GroupOrder) (restaurantId buildingId : Nat)
    (deliverySlot orderDate : String) : Option GroupOrder :=
  gos.find? (groupOrderKeyMatch restaurantId buildingId deliverySlot orderDate)

/-- Number of `group_orders` rows carrying a given aggregation key. -/
def countGroupOrdersForKey (gos : List GroupOrder) (restaurantId buildingId : Nat)
    (deliverySlot orderDate : String) : Nat :=
  (gos.filter (groupOrderKeyMatch restaurantId buildingId deliverySlot orderDate)).length

/-- `RestaurantRepository.findById`. -/
def restaurantFindById (rs : List Restaurant) (id : Nat) : Option Restaurant :=
  rs.find? (fun r => decide (r.id = id))

/-- `BuildingRepository.findById`. -/
def buildingFindById (bs : List Building) (id : Nat) : Option Building :=
  bs.find? (fun b => decide (b.id = id))

/-- `UserRepository.findByTelegramId`. -/
def userFindByTelegramId (us : List User) (telegramUserId : Int) : Option User :=
  us.find? (fun u => decide (u.telegram_user_id = telegramUserId))

/-! ### Lobby repository (`LobbyRepository`) -/

/-- Key predicate on `slot_lobby_reservations` (without the user column). -/
def reservationKeyMatch (buildingId restaurantId : Nat) (deliverySlot orderDate : String)
    (v : Reservation) : Bool :=
  decide (v.building_id = buildingId) && decide (v.restaurant_id = restaurantId) &&
    decide (v.delivery_slot = deliverySlot) && decide (v.order_date = orderDate)

/-- `LobbyRepository.addReservation`: `INSERT OR IGNORE` under the unique key
(building, restaurant, slot, date, user). -/
def addReservation (rs : List Reservation) (buildingId restaurantId : Nat)
    (deliverySlot orderDate : String) (userId : Nat) : List Reservation :=
  let row : Reservation := ⟨buildingId, restaurantId, deliverySlot, orderDate, userId⟩
  if rs.contains row then rs else rs ++ [row]

/-- `LobbyRepository.countReservations`. -/
def countReservations (rs : List Reservation) (buildingId restaurantId : Nat)
    (deliverySlot orderDate : String) : Nat :=
  (rs.filter (reservationKeyMatch buildingId restaurantId deliverySlot orderDate)).length

/-- `LobbyRepository.deleteReservationsForSlot`: first `SELECT
u.telegram_user_id ... JOIN users`, then `DELETE` every reservation of the
key.  A reservation whose user row is missing is deleted without producing a
telegram id (inner join). -/
def deleteReservationsForSlot (rs : List Reservation) (us : List User)
    (buildingId restaurantId : Nat) (deliverySlot orderDate : String) :
    List Reservation × List Int :=
  let matching := rs.filter (reservationKeyMatch buildingId restaurantId deliverySlot orderDate)
  let telegramIds := matching.filterMap
    (fun v => (us.find? (fun u => decide (u.id = v.user_id))).map User.telegram_user_id)
  (rs.filter (fun v => !reservationKeyMatch buildingId restaurantId deliverySlot orderDate v),
    telegramIds)

/-! ### Lobby quorum sweep (`processLobbyDeadlines`, deadline-scheduler.ts 72-108) -/

/-- The loop body of `processLobbyDeadlines` for one (building, restaurant)
pair and one slot (lines 84-106): read the count; `continue` when the quorum
is met or the lobby is empty; otherwise delete the key's reservations and
collect the telegram ids to notify. -/
def processLobbyKey (minParticipants : Int) (st : Store) (buildingId restaurantId : Nat)
    (slotId today : String) : Store × List Int :=
  let count := countReservations st.reservations buildingId restaurantId slotId today
  if (count : Int) ≥ minParticipants then (st, [])
  else if count = 0 then (st, [])
  else
    let (rs, telegramIds) :=
      deleteReservationsForSlot st.reservations st.users buildingId restaurantId slotId today
    ({ st with reservations := rs }, telegramIds)

/-- `processLobbyDeadlines` (lines 72-108): for every configured slot whose
lobby deadline has passed and every `restaurant_buildings` pair, run
`processLobbyKey`; collects `(telegramId, slot.time)` notification requests
(`notifyLobbyCancelled` is fire-and-forget with its own `.catch`). -/
def processLobbyDeadlines (minParticipants : Int) (slots : List SlotDef)
    (nowMinutes : Int) (today : String) (st : Store) : Store × List (Int × String) :=
  let pairs := st.restaurantBuildings.dedup
  slots.foldl
    (fun acc slot =>
      if isLobbyDeadlinePassed slot.id nowMinutes then
        pairs.foldl
          (fun acc2 pr =>
            let (st2, tgIds) := processLobbyKey minParticipants acc2.1 pr.1 pr.2 slot.id today
            (st2, acc2.2 ++ tgIds.map (fun tg => (tg, slot.time))))
          acc
      else acc)
    (st, [])

/-! ### Order aggregation sweep (`processSlotDeadlines`, deadline-scheduler.ts 110-183) -/

/-- The payload handed to `sendGroupOrder` (lines 160-174). -/
structure GroupNotification where
  restaurantChatId : Int
  restaurantName : String
  buildingName : String
  deliverySlot : String
  groupOrderId : Nat
  orders : List (Nat × Nat × Int × String)
  totalAmount : Int
  participantCount : Nat
deriving DecidableEq, Repr

/-- Result of one aggregation sweep: the store together with every
`sendGroupOrder` call made, paired with `true` when the call returned and
`false` when it threw (the exception is caught and logged at lines 175-180
and has no further effect). -/
structure AggResult where
  store : Store
  calls : List (GroupNotification × Bool)
deriving DecidableEq, Repr

/-- `SELECT DISTINCT restaurant_id, building_id FROM orders WHERE
delivery_slot = ? AND status = 'pending' AND (order_date = ? OR
(order_date IS NULL AND date(created_at) = ?))` (lines 117-125). -/
def distinctGroups (orders : List Order) (slotId today : String) : List (Nat × Nat) :=
  ((orders.filter (fun o =>
      decide (o.delivery_slot = slotId) && decide (o.status = .pending) &&
        matchesDate o today)).map
    (fun o => (o.restaurant_id, o.building_id))).dedup

/-- The `group_orders` row inserted by `groupOrderRepo.create` (lines
143-149): status `pending_restaurant`, id from the autoincrement counter. -/
def newGroupOrder (st : Store) (restaurant_id building_id : Nat)
    (slotId today : String) : GroupOrder :=
  ⟨st.nextGroupOrderId, restaurant_id, building_id, slotId, today, .pending_restaurant⟩

/-- The `sendGroupOrder` payload built at lines 160-174. -/
def newNotification (st : Store) (rest : Restaurant) (bld : Building)
    (slotId today : String) (restaurant_id building_id : Nat) : GroupNotification :=
  let orders := findPendingForGroup st.orders slotId building_id restaurant_id today
  { restaurantChatId := rest.chat_id
    restaurantName := rest.name
    buildingName := bld.name
    deliverySlot := slotId
    groupOrderId := st.nextGroupOrderId
    orders := orders.map (fun o => (o.id, o.user_id, o.total_price, o.items))
    totalAmount := orders.foldl (fun s o => s + o.total_price) 0
    participantCount := orders.length }

/-- The loop body of `processSlotDeadlines` for one (restaurant, building)
pair (lines 127-181): skip when a GroupOrder already exists for the key, when
the re-fetched pending list is empty, or when the restaurant or building row
is missing; otherwise create one GroupOrder with status `pending_restaurant`
and call `sendGroupOrder`, whose failure (`sendOk` false) is caught and only
logged. -/
def processPair (sendOk : GroupNotification → Bool) (today : String) (slot : SlotDef)
    (acc : AggResult) (pr : Nat × Nat) : AggResult :=
  let restaurant_id := pr.1
  let building_id := pr.2
  match findByRestaurantAndSlot acc.store.groupOrders restaurant_id building_id slot.id today with
  | some _ => acc
  | none =>
    let orders := findPendingForGroup acc.store.orders slot.id building_id restaurant_id today
    if orders.isEmpty then acc
    else
      match restaurantFindById acc.store.restaurants restaurant_id with
      | none => acc
      | some restaurant =>
      match buildingFindById acc.store.buildings building_id with
      | none => acc
      | some building =>
        let go := newGroupOrder acc.store restaurant_id building_id slot.id today
        let st' := { acc.store with
          groupOrders := acc.store.groupOrders ++ [go]
          nextGroupOrderId := acc.store.nextGroupOrderId + 1 }
        let notif := newNotification acc.store restaurant building slot.id today
          restaurant_id building_id
        { store := st', calls := acc.calls ++ [(notif, sendOk notif)] }

/-- The per-slot step of `processSlotDeadlines` (lines 114-182). -/
def processSlot (sendOk : GroupNotification → Bool) (nowMinutes : Int) (today : String)
    (acc : AggResult) (slot : SlotDef) : AggResult :=
  if isDeadlinePassedForSlot slot.id nowMinutes then
    (distinctGroups acc.store.orders slot.id today).foldl (processPair sendOk today slot) acc
  else acc

/-- `processSlotDeadlines` (lines 110-183), parametrised by the slot list
(the source iterates `ORDER_CONFIG.deliverySlots`). -/
def processSlotDeadlines (sendOk : GroupNotification → Bool) (slots : List SlotDef)
    (nowMinutes : Int) (today : String) (st : Store) : AggResult :=
  slots.foldl (processSlot sendOk nowMinutes today) ⟨st, []⟩

/-! ### Exception flow of a scheduler tick (`runAll`, deadline-scheduler.ts 185-196)

The repository's store (better-sqlite3) can throw on any query.  The sweep
bodies contain no try/catch around the store operations — the only guarded
calls are `sendGroupOrder` (lines 159-180) and the fire-and-forget
`notifyLobbyCancelled` (line 102).  The `Except` variants below mirror the
control flow with a failure oracle marking which key's store access throws:
the first throw aborts the enclosing sweep, carrying the store state already
committed before the failure. -/

instance {ε α : Type} [DecidableEq ε] [DecidableEq α] : DecidableEq (Except ε α) := fun x y =>
  match x, y with
  | .error a, .error b =>
    if h : a = b then isTrue (congrArg Except.error h)
    else isFalse (fun hc => h (Except.error.inj hc))
  | .ok a, .ok b =>
    if h : a = b then isTrue (congrArg Except.ok h)
    else isFalse (fun hc => h (Except.ok.inj hc))
  | .error _, .ok _ => isFalse (fun hc => Except.noConfusion hc)
  | .ok _, .error _ => isFalse (fun hc => Except.noConfusion hc)

/-- Left fold that stops at the first thrown exception, the evaluation order
of a sequential loop whose body can throw. -/
def foldlExcept (f : β → α → Except ε β) : β → List α → Except ε β
  | b, [] => .ok b
  | b, a :: as =>
    match f b a with
    | .error e => .error e
    | .ok b' => foldlExcept f b' as

/-- A store failure site inside a sweep: the (slot, building, restaurant)
iteration whose store access threw, together with the store state already
committed at that point. -/
structure SweepError (σ : Type) where
  committedState : σ
  slotId : String
  buildingId : Nat
  restaurantId : Nat
deriving DecidableEq, Repr

/-- `processLobbyDeadlines` with a store-failure oracle: the loop body has no
try/catch, so a throw while handling one key aborts the whole sweep. -/
def processLobbyDeadlinesExc (storeFail : String → Nat → Nat → Bool) (minParticipants : Int)
    (slots : List SlotDef) (nowMinutes : Int) (today : String) (st : Store) :
    Except (SweepError Store) (Store × List (Int × String)) :=
  let pairs := st.restaurantBuildings.dedup
  foldlExcept
    (fun acc slot =>
      if isLobbyDeadlinePassed slot.id nowMinutes then
        foldlExcept
          (fun acc2 pr =>
            if storeFail slot.id pr.1 pr.2 then
              .error ⟨acc2.1, slot.id, pr.1, pr.2⟩
            else
              let (st2, tgIds) := processLobbyKey minParticipants acc2.1 pr.1 pr.2 slot.id today
              .ok (st2, acc2.2 ++ tgIds.map (fun tg => (tg, slot.time))))
          acc pairs
      else .ok acc)
    (st, []) slots

/-- `processSlotDeadlines` with a store-failure oracle: only the
`sendGroupOrder` call is guarded, so a store throw while aggregating one
(restaurant, building) pair aborts the whole sweep. -/
def processSlotDeadlinesExc (storeFail : String → Nat → Nat → Bool)
    (sendOk : GroupNotification → Bool) (slots : List SlotDef) (nowMinutes : Int)
    (today : String) (st : Store) : Except (SweepError AggResult) AggResult :=
  foldlExcept
    (fun acc slot =>
      if isDeadlinePassedForSlot slot.id nowMinutes then
        foldlExcept
          (fun acc2 pr =>
            if storeFail slot.id pr.2 pr.1 then
              .error ⟨acc2, slot.id, pr.2, pr.1⟩
            else .ok (processPair sendOk today slot acc2 pr))
          acc (distinctGroups acc.store.orders slot.id today)
      else .ok acc)
    ⟨st, []⟩ slots

/-- What one `runAll` tick produced when it returned normally. -/
structure TickResult where
  store : Store
  lobbyCancellations : List (Int × String)
  aggCalls : List (GroupNotification × Bool)
  /-- The aggregation-sweep store failure caught by the `.catch` on the
  `processSlotDeadlines()` promise (line 187-189), if any. -/
  aggError : Option (String × Nat × Nat)
deriving DecidableEq, Repr

/-- `runAll` (deadline-scheduler.ts lines 185-190): the synchronous
`processLobbyDeadlines()` call is unguarded, so an exception inside it
escapes the tick handler (the `.error` case); the asynchronous
`processSlotDeadlines()` has `.catch` attached, so its failures are logged
and swallowed. -/
def runAll (lobbyStoreFail aggStoreFail : String → Nat → Nat → Bool)
    (sendOk : GroupNotification → Bool) (minParticipants : Int) (slots : List SlotDef)
    (nowMinutes : Int) (today : String) (st : Store) :
    Except (SweepError Store) TickResult :=
  match processLobbyDeadlinesExc lobbyStoreFail minParticipants slots nowMinutes today st with
  | .error e => .error e
  | .ok (st1, cancels) =>
    match processSlotDeadlinesExc aggStoreFail sendOk slots nowMinutes today st1 with
    | .error e =>
      .ok ⟨e.committedState.store, cancels, e.committedState.calls,
        some (e.slotId, e.buildingId, e.restaurantId)⟩
    | .ok res => .ok ⟨res.store, cancels, res.calls, none⟩

/-! ### API handlers (`src/api/server.ts`) -/

inductive JoinOutcome
  | deadlinePassed
  | userNotFound
  | joined
deriving DecidableEq, Repr

/-- `POST /api/lobby/join` (server.ts lines 262-303): reject with 400 when
`nowMinutes > Math.max(toMinutes(delivery_slot) - lobbyLeadMinutes, 0)`,
404 when the telegram user has no row, otherwise `addReservation`. -/
def lobbyJoin (st : Store) (telegramUserId : Int) (buildingId restaurantId : Nat)
    (deliverySlot : String) (nowMinutes : Int) (today : String) : JoinOutcome × Store :=
  let passed :=
    match toMinutes deliverySlot with
    | some s => decide (nowMinutes > deadlineMinutesOf s lobbyLeadMinutes)
    | none => false
  if passed then (.deadlinePassed, st)
  else
    match userFindByTelegramId st.users telegramUserId with
    | none => (.userNotFound, st)
    | some user =>
      (.joined,
        { st with reservations :=
            addReservation st.reservations buildingId restaurantId deliverySlot today user.id })

inductive CreateOrderOutcome
  | duplicateActive
  | created (o : Order)
deriving DecidableEq, Repr

/-- The duplicate-protection core of `POST /api/orders` (server.ts lines
809-836): if `findActiveByUserAndSlot` finds an active order, answer
`user_order_already_exists_for_slot`; otherwise insert a new `pending`
order dated today. -/
def postOrder (st : Store) (newId userId restaurantId buildingId : Nat)
    (items : String) (totalPrice : Int) (deliverySlot today : String) :
    CreateOrderOutcome × Store :=
  match findActiveByUserAndSlot st.orders userId buildingId restaurantId deliverySlot today with
  | some _ => (.duplicateActive, st)
  | none =>
    let o : Order :=
      ⟨newId, userId, restaurantId, buildingId, items, totalPrice, deliverySlot,
        some today, today, .pending⟩
    (.created o, { st with orders := st.orders ++ [o] })

/-- `isActivated` as computed by `GET /api/delivery-slots` (server.ts line
226): `currentParticipants >= minParticipants`. -/
def isActivated (currentParticipants : Nat) (minParticipants : Int) : Bool :=
  decide ((currentParticipants : Int) ≥ minParticipants)

/-! ### Auxiliary predicates and concrete fixtures -/

/-- A (restaurant, building) pair is settled for a slot and date when the
aggregation loop body would skip it: a GroupOrder already exists, no pending
order remains, or the restaurant or building row is missing. -/
def Settled (st : Store) (today : String) (slot : SlotDef) (p : Nat × Nat) : Prop :=
  (findByRestaurantAndSlot st.groupOrders p.1 p.2 slot.id today).isSome ∨
  findPendingForGroup st.orders slot.id p.2 p.1 today = [] ∨
  restaurantFindById st.restaurants p.1 = none ∨
  buildingFindById st.buildings p.2 = none

/-- The slot definition `{ id: '13:00', time: '13:00' }`. -/
def slot13 : SlotDef := ⟨"13:00", "13:00"⟩

/-- Fixture date. -/
def day0 : String := "2026-02-10"

/-- Fixture: three pending orders with totals 100, 150, 200 for
(restaurant 1, building 1, slot "13:00", day0). -/
def threeOrdersStore : Store :=
  { orders :=
      [⟨1, 10, 1, 1, "[]", 100, "13:00", some day0, day0, .pending⟩,
       ⟨2, 11, 1, 1, "[]", 150, "13:00", some day0, day0, .pending⟩,
       ⟨3, 12, 1, 1, "[]", 200, "13:00", some day0, day0, .pending⟩]
    groupOrders := []
    restaurants := [⟨1, 77, "RestA"⟩]
    buildings := [⟨1, "B1"⟩]
    reservations := []
    users := []
    restaurantBuildings := [(1, 1)]
    nextGroupOrderId := 1 }

/-- Fixture: two pending orders for two distinct (restaurant, building)
pairs, both past the "13:00" deadline, with intact referential data. -/
def twoPairsStore : Store :=
  { orders :=
      [⟨1, 10, 1, 1, "[]", 100, "13:00", some day0, day0, .pending⟩,
       ⟨2, 11, 2, 2, "[]", 150, "13:00", some day0, day0, .pending⟩]
    groupOrders := []
    restaurants := [⟨1, 77, "RestA"⟩, ⟨2, 88, "RestB"⟩]
    buildings := [⟨1, "B1"⟩, ⟨2, "B2"⟩]
    reservations := []
    users := []
    restaurantBuildings := [(1, 1), (2, 2)]
    nextGroupOrderId := 1 }

/-- Fixture: one lobby reservation (user 5, telegram id 999) for
(building 1, restaurant 1, slot "13:00", day0), plus aggregation data as in
`twoPairsStore`'s first pair. -/
def lobbyStore : Store :=
  { orders := [⟨1, 10, 1, 1, "[]", 100, "13:00", some day0, day0, .pending⟩]
    groupOrders := []
    restaurants := [⟨1, 77, "RestA"⟩]
    buildings := [⟨1, "B1"⟩]
    reservations := [⟨1, 1, "13:00", day0, 5⟩]
    users := [⟨5, 999⟩]
    restaurantBuildings := [(1, 1)]
    nextGroupOrderId := 1 }

/-- Failure oracle: the store throws exactly while handling
(slot "13:00", building 1, restaurant 1). -/
def failOn11 (slotId : String) (buildingId restaurantId : Nat) : Bool :=
  decide (slotId = "13:00") && decide (buildingId = 1) && decide (restaurantId = 1)

/-- Failure oracle of a healthy store. -/
def noFail (_ : String) (_ _ : Nat) : Bool := false

/-- A notification sink whose calls always return. -/
def sendAlwaysOk (_ : GroupNotification) : Bool := true

/-! ## Theorems -/

/-- C4: for every slot and lead time the deadline is
`max(slotMinutes - leadMinutes, 0)` with `slotMinutes` the minutes since
midnight parsed from "HH:MM", and the deadline counts as passed exactly when
`nowMinutes` is strictly greater than it; for slot "13:00" with
`orderLeadMinutes = 150` the deadline is 630 minutes, `nowMinutes = 629`
does not trigger aggregation and `nowMinutes = 631` does. -/
theorem deadline_formula_and_boundary (slotId : String) (s lead now : Int)
    (h : toMinutes slotId = some s) :
    (isPastDeadlineWithLead slotId lead now = true ↔ now > max (s - lead) 0) ∧
    toMinutes "13:00" = some 780 ∧
    deadlineMinutesOf 780 orderLeadMinutes = 630 ∧
    isDeadlinePassedForSlot "13:00" 629 = false ∧
    isDeadlinePassedForSlot "13:00" 631 = true := by
  refine ⟨?_, by decide, by decide, by decide, by decide⟩
  simp only [isPastDeadlineWithLead, h, deadlineMinutesOf]
  simp

/-- Witness for `deadline_formula_and_boundary` at slot "13:00",
`lead = 150`, `now = 631`. -/
theorem deadline_formula_and_boundary_witness :
    (isPastDeadlineWithLead "13:00" 150 631 = true ↔ (631 : Int) > max (780 - 150) 0) ∧
    toMinutes "13:00" = some 780 ∧
    deadlineMinutesOf 780 orderLeadMinutes = 630 ∧
    isDeadlinePassedForSlot "13:00" 629 = false ∧
    isDeadlinePassedForSlot "13:00" 631 = true :=
  deadline_formula_and_boundary "13:00" 780 150 631 (by decide)

/-- C9: the effective quorum threshold is always at least 1 — the config
clamps it with `Math.max(1, ... || 1)` and falls back to 1 on a missing or
unparsable `MIN_LOBBY_PARTICIPANTS` — so a lobby with zero reservations is
never activated and `count >= minLobbyParticipants` can never hold with
`count = 0`. -/
theorem min_lobby_participants_at_least_one (envVal : Option String) :
    1 ≤ minLobbyParticipantsConfig envVal ∧
    minLobbyParticipantsConfig none = 1 ∧
    minLobbyParticipantsConfig (some "abc") = 1 ∧
    isActivated 0 (schedulerMinLobbyParticipants envVal) = false ∧
    ¬ ((0 : Int) ≥ schedulerMinLobbyParticipants envVal) := by
  have h1 : 1 ≤ minLobbyParticipantsConfig envVal := le_max_left _ _
  have h0 : ¬ ((0 : Int) ≥ schedulerMinLobbyParticipants envVal) := by
    rw [schedulerMinLobbyParticipants]
    omega
  refine ⟨h1, by decide, by decide, ?_, h0⟩
  rw [isActivated]
  simpa using h0


/-- The aggregation loop body never touches orders, restaurants, buildings,
reservations, users or the link table. -/
theorem processPair_store_frame (sendOk : GroupNotification → Bool) (today : String)
    (slot : SlotDef) (acc : AggResult) (p : Nat × Nat) :
    (processPair sendOk today slot acc p).store.orders = acc.store.orders ∧
    (processPair sendOk today slot acc p).store.restaurants = acc.store.restaurants ∧
    (processPair sendOk today slot acc p).store.buildings = acc.store.buildings ∧
    (processPair sendOk today slot acc p).store.reservations = acc.store.reservations ∧
    (processPair sendOk today slot acc p).store.users = acc.store.users ∧
    (processPair sendOk today slot acc p).store.restaurantBuildings = acc.store.restaurantBuildings := by
  simp only [processPair]
  split
  · exact ⟨rfl, rfl, rfl, rfl, rfl, rfl⟩
  · split
    · exact ⟨rfl, rfl, rfl, rfl, rfl, rfl⟩
    · split
      · exact ⟨rfl, rfl, rfl, rfl, rfl, rfl⟩
      · split
        · exact ⟨rfl, rfl, rfl, rfl, rfl, rfl⟩
        · exact ⟨rfl, rfl, rfl, rfl, rfl, rfl⟩

/-- The aggregation loop body only ever appends to `group_orders`. -/
theorem processPair_groupOrders_ext (sendOk : GroupNotification → Bool) (today : String)
    (slot : SlotDef) (acc : AggResult) (p : Nat × Nat) :
    ∃ ext, (processPair sendOk today slot acc p).store.groupOrders = acc.store.groupOrders ++ ext := by
  simp only [processPair]
  split
  · exact ⟨[], by simp⟩
  · split
    · exact ⟨[], by simp⟩
    · split
      · exact ⟨[], by simp⟩
      · split
        · exact ⟨[], by simp⟩
        · exact ⟨_, rfl⟩

/-- Shape of the aggregation loop body on the creation path: no existing
GroupOrder, a non-empty pending list, and resolvable restaurant and building
rows yield exactly one inserted row and one `sendGroupOrder` call. -/
theorem processPair_creates (sendOk : GroupNotification → Bool) (today : String)
    (slot : SlotDef) (acc : AggResult) (p : Nat × Nat)
    (hnone : findByRestaurantAndSlot acc.store.groupOrders p.1 p.2 slot.id today = none)
    (hne : findPendingForGroup acc.store.orders slot.id p.2 p.1 today ≠ [])
    (rest : Restaurant) (hr : restaurantFindById acc.store.restaurants p.1 = some rest)
    (bld : Building) (hb : buildingFindById acc.store.buildings p.2 = some bld) :
    processPair sendOk today slot acc p =
      { store := { acc.store with
          groupOrders := acc.store.groupOrders ++ [newGroupOrder acc.store p.1 p.2 slot.id today]
          nextGroupOrderId := acc.store.nextGroupOrderId + 1 }
        calls := acc.calls ++
          [(newNotification acc.store rest bld slot.id today p.1 p.2,
            sendOk (newNotification acc.store rest bld slot.id today p.1 p.2))] } := by
  have hempty : (findPendingForGroup acc.store.orders slot.id p.2 p.1 today).isEmpty = false := by
    rcases hh : findPendingForGroup acc.store.orders slot.id p.2 p.1 today with _ | ⟨o, os⟩
    · exact absurd hh hne
    · rfl
  simp only [processPair, hnone, hempty, hr, hb, Bool.false_eq_true, if_false]

/-- `find?` hits on an appended list when it hits on the suffix. -/
theorem find?_isSome_append {α : Type} (p : α → Bool) (l1 l2 : List α)
    (h : (l2.find? p).isSome) : ((l1 ++ l2).find? p).isSome := by
  induction l1 with
  | nil => simpa using h
  | cons a t ih =>
    by_cases ha : p a
    · simp [List.find?, ha]
    · simpa [List.find?, ha] using ih

/-- After its own iteration, a pair is always settled. -/
theorem processPair_settles (sendOk : GroupNotification → Bool) (today : String)
    (slot : SlotDef) (acc : AggResult) (p : Nat × Nat) :
    Settled (processPair sendOk today slot acc p).store today slot p := by
  rcases hfind : findByRestaurantAndSlot acc.store.groupOrders p.1 p.2 slot.id today with _ | g
  · rcases hempty : findPendingForGroup acc.store.orders slot.id p.2 p.1 today with _ | ⟨o, os⟩
    · right; left
      have hframe := processPair_store_frame sendOk today slot acc p
      rw [findPendingForGroup] at hempty ⊢
      rw [hframe.1, hempty]
    · rcases hr : restaurantFindById acc.store.restaurants p.1 with _ | rest
      · right; right; left
        rw [(processPair_store_frame sendOk today slot acc p).2.1, hr]
      · rcases hb : buildingFindById acc.store.buildings p.2 with _ | bld
        · right; right; right
          rw [(processPair_store_frame sendOk today slot acc p).2.2.1, hb]
        · left
          rw [processPair_creates sendOk today slot acc p hfind (by rw [hempty]; simp) rest hr bld hb]
          simp only [findByRestaurantAndSlot]
          apply find?_isSome_append
          simp [List.find?, newGroupOrder, groupOrderKeyMatch]
  · left
    have : processPair sendOk today slot acc p = acc := by
      simp [processPair, hfind]
    rw [this, hfind]
    rfl

/-- The loop body skips a settled pair without touching anything. -/
theorem processPair_of_settled (sendOk : GroupNotification → Bool) (today : String)
    (slot : SlotDef) (acc : AggResult) (p : Nat × Nat)
    (h : Settled acc.store today slot p) :
    processPair sendOk today slot acc p = acc := by
  rcases h with h | h | h | h
  · rcases hfind : findByRestaurantAndSlot acc.store.groupOrders p.1 p.2 slot.id today with _ | g
    · rw [hfind] at h; simp at h
    · simp [processPair, hfind]
  · simp only [processPair, h]
    split
    · rfl
    · simp
  · simp only [processPair, h]
    split
    · rfl
    · split
      · rfl
      · rfl
  · simp only [processPair, h]
    split
    · rfl
    · split
      · rfl
      · split
        · rfl
        · rfl

/-- `find?` hits on an appended list when it hits on the prefix. -/
theorem find?_isSome_of_append_left {α : Type} (p : α → Bool) (l1 l2 : List α)
    (h : (l1.find? p).isSome) : ((l1 ++ l2).find? p).isSome := by
  induction l1 with
  | nil => simp at h
  | cons a t ih =>
    by_cases ha : p a
    · simp [List.find?, ha]
    · simp only [List.cons_append, List.find?, ha] at h ⊢
      exact ih h

/-- Settledness survives any step that only appends GroupOrders and leaves
orders, restaurants and buildings alone. -/
theorem settled_mono {st st' : Store} {today : String} {slot : SlotDef} {p : Nat × Nat}
    (h : Settled st today slot p)
    (hg : ∃ ext, st'.groupOrders = st.groupOrders ++ ext)
    (ho : st'.orders = st.orders) (hr : st'.restaurants = st.restaurants)
    (hb : st'.buildings = st.buildings) : Settled st' today slot p := by
  rcases h with h | h | h | h
  · left
    obtain ⟨ext, hext⟩ := hg
    rw [findByRestaurantAndSlot] at h ⊢
    rw [hext]
    exact find?_isSome_of_append_left _ _ _ h
  · right; left; rw [findPendingForGroup] at h ⊢; rw [ho, h]
  · right; right; left; rw [restaurantFindById] at h ⊢; rw [hr, h]
  · right; right; right; rw [buildingFindById] at h ⊢; rw [hb, h]

/-- Frame conditions lifted to the fold over the pairs of one slot. -/
theorem foldl_processPair_frame (sendOk : GroupNotification → Bool) (today : String)
    (slot : SlotDef) (pairs : List (Nat × Nat)) (acc : AggResult) :
    (pairs.foldl (processPair sendOk today slot) acc).store.orders = acc.store.orders ∧
    (pairs.foldl (processPair sendOk today slot) acc).store.restaurants = acc.store.restaurants ∧
    (pairs.foldl (processPair sendOk today slot) acc).store.buildings = acc.store.buildings ∧
    (pairs.foldl (processPair sendOk today slot) acc).store.reservations = acc.store.reservations ∧
    (pairs.foldl (processPair sendOk today slot) acc).store.users = acc.store.users ∧
    (pairs.foldl (processPair sendOk today slot) acc).store.restaurantBuildings
      = acc.store.restaurantBuildings ∧
    ∃ ext, (pairs.foldl (processPair sendOk today slot) acc).store.groupOrders
      = acc.store.groupOrders ++ ext := by
  induction pairs generalizing acc with
  | nil => exact ⟨rfl, rfl, rfl, rfl, rfl, rfl, [], by simp⟩
  | cons q t ih =>
    have h1 := processPair_store_frame sendOk today slot acc q
    obtain ⟨e1, he1⟩ := processPair_groupOrders_ext sendOk today slot acc q
    obtain ⟨i1, i2, i3, i4, i5, i6, ⟨e2, he2⟩⟩ := ih (processPair sendOk today slot acc q)
    refine ⟨by rw [List.foldl_cons, i1, h1.1], by rw [List.foldl_cons, i2, h1.2.1],
      by rw [List.foldl_cons, i3, h1.2.2.1], by rw [List.foldl_cons, i4, h1.2.2.2.1],
      by rw [List.foldl_cons, i5, h1.2.2.2.2.1], by rw [List.foldl_cons, i6, h1.2.2.2.2.2],
      e1 ++ e2, ?_⟩
    rw [List.foldl_cons, he2, he1, List.append_assoc]

/-- After the fold over a slot's pairs, every processed pair is settled. -/
theorem foldl_processPair_settles (sendOk : GroupNotification → Bool) (today : String)
    (slot : SlotDef) (pairs : List (Nat × Nat)) (acc : AggResult) :
    ∀ p ∈ pairs, Settled (pairs.foldl (processPair sendOk today slot) acc).store today slot p := by
  induction pairs generalizing acc with
  | nil => intro p hp; simp at hp
  | cons q t ih =>
    intro p hp
    rcases List.mem_cons.mp hp with rfl | hp2
    · have h0 := processPair_settles sendOk today slot acc p
      have hf := foldl_processPair_frame sendOk today slot t (processPair sendOk today slot acc p)
      rw [List.foldl_cons]
      exact settled_mono h0 hf.2.2.2.2.2.2 hf.1 hf.2.1 hf.2.2.1
    · rw [List.foldl_cons]
      exact ih (processPair sendOk today slot acc q) p hp2

/-- The fold over pairs preserves settledness of any pair. -/
theorem foldl_processPair_preserves_settled (sendOk : GroupNotification → Bool) (today : String)
    (slot slot' : SlotDef) (pairs : List (Nat × Nat)) (acc : AggResult) (p : Nat × Nat)
    (h : Settled acc.store today slot' p) :
    Settled (pairs.foldl (processPair sendOk today slot) acc).store today slot' p := by
  have hf := foldl_processPair_frame sendOk today slot pairs acc
  exact settled_mono h hf.2.2.2.2.2.2 hf.1 hf.2.1 hf.2.2.1

/-- The fold over pairs is the identity when every pair is already settled. -/
theorem foldl_processPair_of_settled (sendOk : GroupNotification → Bool) (today : String)
    (slot : SlotDef) (pairs : List (Nat × Nat)) (acc : AggResult)
    (h : ∀ p ∈ pairs, Settled acc.store today slot p) :
    pairs.foldl (processPair sendOk today slot) acc = acc := by
  induction pairs with
  | nil => rfl
  | cons q t ih =>
    rw [List.foldl_cons, processPair_of_settled sendOk today slot acc q (h q (by simp))]
    exact ih (fun p hp => h p (by simp [hp]))

/-- Frame conditions for one slot iteration of the aggregation sweep. -/
theorem processSlot_frame (sendOk : GroupNotification → Bool) (now : Int) (today : String)
    (acc : AggResult) (slot : SlotDef) :
    (processSlot sendOk now today acc slot).store.orders = acc.store.orders ∧
    (processSlot sendOk now today acc slot).store.restaurants = acc.store.restaurants ∧
    (processSlot sendOk now today acc slot).store.buildings = acc.store.buildings ∧
    (processSlot sendOk now today acc slot).store.reservations = acc.store.reservations ∧
    (processSlot sendOk now today acc slot).store.users = acc.store.users ∧
    (processSlot sendOk now today acc slot).store.restaurantBuildings
      = acc.store.restaurantBuildings ∧
    ∃ ext, (processSlot sendOk now today acc slot).store.groupOrders
      = acc.store.groupOrders ++ ext := by
  rw [processSlot]
  split
  · exact foldl_processPair_frame sendOk today slot _ acc
  · exact ⟨rfl, rfl, rfl, rfl, rfl, rfl, [], by simp⟩

/-- Frame conditions for the whole aggregation sweep. -/
theorem foldl_processSlot_frame (sendOk : GroupNotification → Bool) (now : Int) (today : String)
    (slots : List SlotDef) (acc : AggResult) :
    (slots.foldl (processSlot sendOk now today) acc).store.orders = acc.store.orders ∧
    (slots.foldl (processSlot sendOk now today) acc).store.restaurants = acc.store.restaurants ∧
    (slots.foldl (processSlot sendOk now today) acc).store.buildings = acc.store.buildings ∧
    ∃ ext, (slots.foldl (processSlot sendOk now today) acc).store.groupOrders
      = acc.store.groupOrders ++ ext := by
  induction slots generalizing acc with
  | nil => exact ⟨rfl, rfl, rfl, [], by simp⟩
  | cons s t ih =>
    have h1 := processSlot_frame sendOk now today acc s
    obtain ⟨i1, i2, i3, ⟨e2, he2⟩⟩ := ih (processSlot sendOk now today acc s)
    obtain ⟨e1, he1⟩ := h1.2.2.2.2.2.2
    exact ⟨by rw [List.foldl_cons, i1, h1.1], by rw [List.foldl_cons, i2, h1.2.1],
      by rw [List.foldl_cons, i3, h1.2.2.1], e1 ++ e2,
      by rw [List.foldl_cons, he2, he1, List.append_assoc]⟩

/-- The sweep preserves settledness of any pair. -/
theorem foldl_processSlot_preserves_settled (sendOk : GroupNotification → Bool) (now : Int)
    (today : String) (slots : List SlotDef) (acc : AggResult) (slot' : SlotDef) (p : Nat × Nat)
    (h : Settled acc.store today slot' p) :
    Settled (slots.foldl (processSlot sendOk now today) acc).store today slot' p := by
  induction slots generalizing acc with
  | nil => exact h
  | cons s t ih =>
    rw [List.foldl_cons]
    apply ih
    have hf := processSlot_frame sendOk now today acc s
    exact settled_mono h hf.2.2.2.2.2.2 hf.1 hf.2.1 hf.2.2.1

/-- After one sweep, every pair of every deadline-passed slot is settled. -/
theorem run_settles (sendOk : GroupNotification → Bool) (slots : List SlotDef) (now : Int)
    (today : String) (acc : AggResult) :
    ∀ slot ∈ slots, isDeadlinePassedForSlot slot.id now = true →
      ∀ p ∈ distinctGroups acc.store.orders slot.id today,
        Settled (slots.foldl (processSlot sendOk now today) acc).store today slot p := by
  induction slots generalizing acc with
  | nil => intro slot hs; simp at hs
  | cons s t ih =>
    intro slot hs hdl p hp
    rcases List.mem_cons.mp hs with rfl | hs2
    · rw [List.foldl_cons]
      apply foldl_processSlot_preserves_settled
      rw [processSlot, hdl]
      simp only [if_true]
      exact foldl_processPair_settles sendOk today slot _ acc p hp
    · rw [List.foldl_cons]
      apply ih (processSlot sendOk now today acc s) slot hs2 hdl p
      rw [(processSlot_frame sendOk now today acc s).1]
      exact hp

/-- A sweep over a fully settled store changes nothing and sends nothing. -/
theorem run_of_settled (sendOk : GroupNotification → Bool) (slots : List SlotDef) (now : Int)
    (today : String) (st : Store)
    (h : ∀ slot ∈ slots, isDeadlinePassedForSlot slot.id now = true →
      ∀ p ∈ distinctGroups st.orders slot.id today, Settled st today slot p) :
    processSlotDeadlines sendOk slots now today st = ⟨st, []⟩ := by
  rw [processSlotDeadlines]
  induction slots with
  | nil => rfl
  | cons s t ih =>
    rw [List.foldl_cons]
    have hstep : processSlot sendOk now today ⟨st, []⟩ s = ⟨st, []⟩ := by
      rw [processSlot]
      split
      · next hdl =>
        exact foldl_processPair_of_settled sendOk today s _ ⟨st, []⟩
          (fun p hp => h s (by simp) hdl p hp)
      · rfl
    rw [hstep]
    exact ih (fun slot hs hdl p hp => h slot (by simp [hs]) hdl p hp)

/-- A second sweep directly after a first one is a no-op on the store. -/
theorem aggregation_idempotent_state (sendOk1 sendOk2 : GroupNotification → Bool)
    (slots : List SlotDef) (now : Int) (today : String) (st : Store) :
    processSlotDeadlines sendOk2 slots now today
        (processSlotDeadlines sendOk1 slots now today st).store
      = ⟨(processSlotDeadlines sendOk1 slots now today st).store, []⟩ := by
  apply run_of_settled
  intro slot hs hdl p hp
  have horders : (processSlotDeadlines sendOk1 slots now today st).store.orders = st.orders := by
    rw [processSlotDeadlines]
    exact (foldl_processSlot_frame sendOk1 now today slots ⟨st, []⟩).1
  rw [horders] at hp
  rw [processSlotDeadlines]
  exact run_settles sendOk1 slots now today ⟨st, []⟩ slot hs hdl p hp

/-- Key counts add over list append. -/
theorem countKey_append (l1 l2 : List GroupOrder) (r b : Nat) (s d : String) :
    countGroupOrdersForKey (l1 ++ l2) r b s d =
      countGroupOrdersForKey l1 r b s d + countGroupOrdersForKey l2 r b s d := by
  simp [countGroupOrdersForKey, List.filter_append]

/-- The existence probe misses exactly when the key count is zero. -/
theorem findKey_none_iff_count_zero (gos : List GroupOrder) (r b : Nat) (s d : String) :
    findByRestaurantAndSlot gos r b s d = none ↔ countGroupOrdersForKey gos r b s d = 0 := by
  rw [findByRestaurantAndSlot, countGroupOrdersForKey, List.find?_eq_none,
    List.length_eq_zero, List.filter_eq_nil_iff]

/-- A freshly created row counts once for its own key. -/
theorem countKey_newGroupOrder (st : Store) (r b : Nat) (s d : String) :
    countGroupOrdersForKey [newGroupOrder st r b s d] r b s d = 1 := by
  simp [countGroupOrdersForKey, newGroupOrder, groupOrderKeyMatch]

/-- One loop-body step keeps every key count at most one, because creation
is guarded by the existence probe. -/
theorem processPair_countKey_le_one (sendOk : GroupNotification → Bool) (today : String)
    (slot : SlotDef) (acc : AggResult) (p : Nat × Nat) (r b : Nat) (s d : String)
    (h : countGroupOrdersForKey acc.store.groupOrders r b s d ≤ 1) :
    countGroupOrdersForKey (processPair sendOk today slot acc p).store.groupOrders r b s d ≤ 1 := by
  rcases hfind : findByRestaurantAndSlot acc.store.groupOrders p.1 p.2 slot.id today with _ | g
  · rcases hempty : findPendingForGroup acc.store.orders slot.id p.2 p.1 today with _ | ⟨o, os⟩
    · rwa [processPair_of_settled sendOk today slot acc p (Or.inr (Or.inl hempty))]
    · rcases hr : restaurantFindById acc.store.restaurants p.1 with _ | rest
      · rwa [processPair_of_settled sendOk today slot acc p (Or.inr (Or.inr (Or.inl hr)))]
      · rcases hb : buildingFindById acc.store.buildings p.2 with _ | bld
        · rwa [processPair_of_settled sendOk today slot acc p (Or.inr (Or.inr (Or.inr hb)))]
        · rw [processPair_creates sendOk today slot acc p hfind (by rw [hempty]; simp) rest hr bld hb]
          by_cases hkey : p.1 = r ∧ p.2 = b ∧ slot.id = s ∧ today = d
          · obtain ⟨rfl, rfl, rfl, rfl⟩ := hkey
            have h0 : countGroupOrdersForKey acc.store.groupOrders p.1 p.2 slot.id today = 0 :=
              (findKey_none_iff_count_zero _ _ _ _ _).mp hfind
            simp only [countKey_append, h0, countKey_newGroupOrder]
            omega
          · have hfalse : groupOrderKeyMatch r b s d
                (newGroupOrder acc.store p.1 p.2 slot.id today) = false := by
              simp only [groupOrderKeyMatch, newGroupOrder]
              rcases (not_and_or.mp hkey) with hne | hrest
              · simp [hne]
              · rcases (not_and_or.mp hrest) with hne | hrest2
                · simp [hne]
                · rcases (not_and_or.mp hrest2) with hne | hne
                  · simp [hne]
                  · simp [hne]
            have hgo : countGroupOrdersForKey
                [newGroupOrder acc.store p.1 p.2 slot.id today] r b s d = 0 := by
              simp [countGroupOrdersForKey, hfalse]
            calc countGroupOrdersForKey (acc.store.groupOrders ++ [newGroupOrder acc.store p.1 p.2 slot.id today]) r b s d
                = countGroupOrdersForKey acc.store.groupOrders r b s d + 0 := by
                  rw [countKey_append, hgo]
              _ ≤ 1 := by simpa using h
  · rwa [processPair_of_settled sendOk today slot acc p (Or.inl (by rw [hfind]; rfl))]

/-- Key counts never decrease across a loop-body step. -/
theorem processPair_countKey_mono (sendOk : GroupNotification → Bool) (today : String)
    (slot : SlotDef) (acc : AggResult) (p : Nat × Nat) (r b : Nat) (s d : String) :
    countGroupOrdersForKey acc.store.groupOrders r b s d ≤
      countGroupOrdersForKey (processPair sendOk today slot acc p).store.groupOrders r b s d := by
  obtain ⟨ext, hext⟩ := processPair_groupOrders_ext sendOk today slot acc p
  rw [hext, countKey_append]
  omega

/-- A hit of the existence probe means the key count is positive. -/
theorem findKey_some_count_pos (gos : List GroupOrder) (r b : Nat) (s d : String) (g : GroupOrder)
    (h : findByRestaurantAndSlot gos r b s d = some g) :
    1 ≤ countGroupOrdersForKey gos r b s d := by
  by_contra hlt
  have h0 : countGroupOrdersForKey gos r b s d = 0 := by omega
  rw [← findKey_none_iff_count_zero] at h0
  rw [h] at h0
  exact Option.noConfusion h0

/-- Key counts never decrease across a slot's pair fold. -/
theorem foldl_processPair_countKey_mono (sendOk : GroupNotification → Bool) (today : String)
    (slot : SlotDef) (pairs : List (Nat × Nat)) (acc : AggResult) (r b : Nat) (s d : String) :
    countGroupOrdersForKey acc.store.groupOrders r b s d ≤
      countGroupOrdersForKey (pairs.foldl (processPair sendOk today slot) acc).store.groupOrders r b s d := by
  obtain ⟨ext, hext⟩ := (foldl_processPair_frame sendOk today slot pairs acc).2.2.2.2.2.2
  rw [hext, countKey_append]
  omega

/-- A slot's pair fold keeps every key count at most one. -/
theorem foldl_processPair_countKey_le_one (sendOk : GroupNotification → Bool) (today : String)
    (slot : SlotDef) (pairs : List (Nat × Nat)) (acc : AggResult) (r b : Nat) (s d : String)
    (h : countGroupOrdersForKey acc.store.groupOrders r b s d ≤ 1) :
    countGroupOrdersForKey (pairs.foldl (processPair sendOk today slot) acc).store.groupOrders r b s d ≤ 1 := by
  induction pairs generalizing acc with
  | nil => exact h
  | cons q t ih =>
    rw [List.foldl_cons]
    exact ih _ (processPair_countKey_le_one sendOk today slot acc q r b s d h)

/-- A slot's pair fold reaches every listed pair: a pair with pending orders
and intact referential data ends with at least one GroupOrder. -/
theorem foldl_processPair_countKey_ge_one (sendOk : GroupNotification → Bool) (today : String)
    (slot : SlotDef) (pairs : List (Nat × Nat)) (acc : AggResult) (p : Nat × Nat)
    (hp : p ∈ pairs)
    (hpend : findPendingForGroup acc.store.orders slot.id p.2 p.1 today ≠ [])
    (hr : (restaurantFindById acc.store.restaurants p.1).isSome)
    (hb : (buildingFindById acc.store.buildings p.2).isSome) :
    1 ≤ countGroupOrdersForKey (pairs.foldl (processPair sendOk today slot) acc).store.groupOrders
      p.1 p.2 slot.id today := by
  induction pairs generalizing acc with
  | nil => simp at hp
  | cons q t ih =>
    rw [List.foldl_cons]
    rcases List.mem_cons.mp hp with rfl | hp2
    · have hone : 1 ≤ countGroupOrdersForKey
          (processPair sendOk today slot acc p).store.groupOrders p.1 p.2 slot.id today := by
        rcases hfind : findByRestaurantAndSlot acc.store.groupOrders p.1 p.2 slot.id today with _ | g
        · obtain ⟨rest, hrs⟩ := Option.isSome_iff_exists.mp hr
          obtain ⟨bld, hbs⟩ := Option.isSome_iff_exists.mp hb
          rw [processPair_creates sendOk today slot acc p hfind hpend rest hrs bld hbs]
          simp only [countKey_append, countKey_newGroupOrder]
          omega
        · calc (1 : Nat) ≤ countGroupOrdersForKey acc.store.groupOrders p.1 p.2 slot.id today :=
                findKey_some_count_pos _ _ _ _ _ _ hfind
            _ ≤ _ := processPair_countKey_mono sendOk today slot acc p p.1 p.2 slot.id today
      calc (1 : Nat) ≤ _ := hone
        _ ≤ _ := foldl_processPair_countKey_mono sendOk today slot t _ p.1 p.2 slot.id today
    · have hfr := processPair_store_frame sendOk today slot acc q
      apply ih _ hp2
      · rw [hfr.1]; exact hpend
      · rw [hfr.2.1]; exact hr
      · rw [hfr.2.2.1]; exact hb

/-- A pair appears in the DISTINCT scan exactly when the re-fetched pending
list for it is non-empty (both read the same predicate). -/
theorem mem_distinct_iff_pending_ne_nil (orders : List Order) (slotId today : String)
    (pr pb : Nat) :
    (pr, pb) ∈ distinctGroups orders slotId today ↔
      findPendingForGroup orders slotId pb pr today ≠ [] := by
  rw [distinctGroups, List.mem_dedup, List.mem_map]
  constructor
  · rintro ⟨o, ho, heq⟩
    rw [List.mem_filter] at ho
    obtain ⟨hmem, hrow⟩ := ho
    rw [Prod.mk.injEq] at heq
    apply List.ne_nil_of_mem (a := o)
    rw [findPendingForGroup, List.mem_filter]
    refine ⟨hmem, ?_⟩
    simp only [Bool.and_eq_true, decide_eq_true_eq] at hrow
    simp only [pendingForGroupRow, Bool.and_eq_true, decide_eq_true_eq]
    exact ⟨⟨⟨⟨hrow.1.1, heq.2⟩, heq.1⟩, hrow.1.2⟩, hrow.2⟩
  · intro hne
    obtain ⟨o, ho⟩ := List.exists_mem_of_ne_nil _ hne
    rw [findPendingForGroup, List.mem_filter] at ho
    obtain ⟨hmem, hrow⟩ := ho
    simp only [pendingForGroupRow, Bool.and_eq_true, decide_eq_true_eq] at hrow
    refine ⟨o, ?_, ?_⟩
    · rw [List.mem_filter]
      refine ⟨hmem, ?_⟩
      simp only [Bool.and_eq_true, decide_eq_true_eq]
      exact ⟨⟨hrow.1.1.1.1, hrow.1.2⟩, hrow.2⟩
    · rw [Prod.mk.injEq]
      exact ⟨hrow.1.1.2, hrow.1.1.1.2⟩

/-- Key counts never decrease across one slot iteration. -/
theorem processSlot_countKey_mono (sendOk : GroupNotification → Bool) (now : Int) (today : String)
    (acc : AggResult) (slot : SlotDef) (r b : Nat) (s d : String) :
    countGroupOrdersForKey acc.store.groupOrders r b s d ≤
      countGroupOrdersForKey (processSlot sendOk now today acc slot).store.groupOrders r b s d := by
  obtain ⟨ext, hext⟩ := (processSlot_frame sendOk now today acc slot).2.2.2.2.2.2
  rw [hext, countKey_append]
  omega

/-- Key counts never decrease across the sweep. -/
theorem foldl_processSlot_countKey_mono (sendOk : GroupNotification → Bool) (now : Int)
    (today : String) (slots : List SlotDef) (acc : AggResult) (r b : Nat) (s d : String) :
    countGroupOrdersForKey acc.store.groupOrders r b s d ≤
      countGroupOrdersForKey (slots.foldl (processSlot sendOk now today) acc).store.groupOrders r b s d := by
  obtain ⟨ext, hext⟩ := (foldl_processSlot_frame sendOk now today slots acc).2.2.2
  rw [hext, countKey_append]
  omega

/-- One slot iteration keeps every key count at most one. -/
theorem processSlot_countKey_le_one (sendOk : GroupNotification → Bool) (now : Int)
    (today : String) (acc : AggResult) (slot : SlotDef) (r b : Nat) (s d : String)
    (h : countGroupOrdersForKey acc.store.groupOrders r b s d ≤ 1) :
    countGroupOrdersForKey (processSlot sendOk now today acc slot).store.groupOrders r b s d ≤ 1 := by
  rw [processSlot]
  split
  · exact foldl_processPair_countKey_le_one sendOk today slot _ acc r b s d h
  · exact h

/-- The sweep keeps every key count at most one. -/
theorem run_countKey_le_one (sendOk : GroupNotification → Bool) (slots : List SlotDef)
    (now : Int) (today : String) (acc : AggResult) (r b : Nat) (s d : String)
    (h : countGroupOrdersForKey acc.store.groupOrders r b s d ≤ 1) :
    countGroupOrdersForKey (slots.foldl (processSlot sendOk now today) acc).store.groupOrders
      r b s d ≤ 1 := by
  induction slots generalizing acc with
  | nil => exact h
  | cons q t ih =>
    rw [List.foldl_cons]
    exact ih _ (processSlot_countKey_le_one sendOk now today acc q r b s d h)

/-- The sweep creates a GroupOrder for every reachable pending key. -/
theorem run_countKey_ge_one (sendOk : GroupNotification → Bool) (slots : List SlotDef)
    (now : Int) (today : String) (acc : AggResult) (slot : SlotDef) (r b : Nat)
    (hslot : slot ∈ slots) (hdl : isDeadlinePassedForSlot slot.id now = true)
    (hpend : findPendingForGroup acc.store.orders slot.id b r today ≠ [])
    (hr : (restaurantFindById acc.store.restaurants r).isSome)
    (hb : (buildingFindById acc.store.buildings b).isSome) :
    1 ≤ countGroupOrdersForKey (slots.foldl (processSlot sendOk now today) acc).store.groupOrders
      r b slot.id today := by
  induction slots generalizing acc with
  | nil => simp at hslot
  | cons q t ih =>
    rw [List.foldl_cons]
    rcases List.mem_cons.mp hslot with rfl | hs2
    · have h1 : 1 ≤ countGroupOrdersForKey
          (processSlot sendOk now today acc slot).store.groupOrders r b slot.id today := by
        rw [processSlot, hdl]
        simp only [if_true]
        exact foldl_processPair_countKey_ge_one sendOk today slot _ acc (r, b)
          ((mem_distinct_iff_pending_ne_nil acc.store.orders slot.id today r b).mpr hpend)
          hpend hr hb
      calc (1 : Nat) ≤ _ := h1
        _ ≤ _ := foldl_processSlot_countKey_mono sendOk now today t _ r b slot.id today
    · have hfr := processSlot_frame sendOk now today acc q
      apply ih _ hs2
      · rw [hfr.1]; exact hpend
      · rw [hfr.2.1]; exact hr
      · rw [hfr.2.2.1]; exact hb

/-- The `reduce((s, o) => s + o.total_price, 0)` of the source is the sum of
the mapped totals. -/
theorem foldl_add_total_price (l : List Order) :
    l.foldl (fun s o => s + o.total_price) 0 = (l.map Order.total_price).sum := by
  have h : ∀ (t : List Order) (i : Int), t.foldl (fun s o => s + o.total_price) i
      = i + (t.map Order.total_price).sum := by
    intro t
    induction t with
    | nil => intro i; simp
    | cons o u ih => intro i; simp [ih, add_assoc]
  simpa using h l 0

/-- The loop body's store effect and call payloads do not depend on whether
`sendGroupOrder` succeeds. -/
theorem processPair_oracle_resp (ok1 ok2 : GroupNotification → Bool) (today : String)
    (slot : SlotDef) (a1 a2 : AggResult) (p : Nat × Nat)
    (hs : a1.store = a2.store) (hc : a1.calls.map Prod.fst = a2.calls.map Prod.fst) :
    (processPair ok1 today slot a1 p).store = (processPair ok2 today slot a2 p).store ∧
    (processPair ok1 today slot a1 p).calls.map Prod.fst
      = (processPair ok2 today slot a2 p).calls.map Prod.fst := by
  rcases hfind : findByRestaurantAndSlot a1.store.groupOrders p.1 p.2 slot.id today with _ | g
  · rcases hempty : findPendingForGroup a1.store.orders slot.id p.2 p.1 today with _ | ⟨o, os⟩
    · rw [processPair_of_settled ok1 today slot a1 p (Or.inr (Or.inl hempty)),
        processPair_of_settled ok2 today slot a2 p (Or.inr (Or.inl (by rw [← hs]; exact hempty)))]
      exact ⟨hs, hc⟩
    · rcases hr : restaurantFindById a1.store.restaurants p.1 with _ | rest
      · rw [processPair_of_settled ok1 today slot a1 p (Or.inr (Or.inr (Or.inl hr))),
          processPair_of_settled ok2 today slot a2 p
            (Or.inr (Or.inr (Or.inl (by rw [← hs]; exact hr))))]
        exact ⟨hs, hc⟩
      · rcases hb : buildingFindById a1.store.buildings p.2 with _ | bld
        · rw [processPair_of_settled ok1 today slot a1 p (Or.inr (Or.inr (Or.inr hb))),
            processPair_of_settled ok2 today slot a2 p
              (Or.inr (Or.inr (Or.inr (by rw [← hs]; exact hb))))]
          exact ⟨hs, hc⟩
        · have hne : findPendingForGroup a1.store.orders slot.id p.2 p.1 today ≠ [] := by
            rw [hempty]; simp
          rw [processPair_creates ok1 today slot a1 p hfind hne rest hr bld hb,
            processPair_creates ok2 today slot a2 p (by rw [← hs]; exact hfind)
              (by rw [← hs]; exact hne) rest (by rw [← hs]; exact hr) bld
              (by rw [← hs]; exact hb)]
          constructor
          · simp [hs]
          · simp [hs, hc]
  · rw [processPair_of_settled ok1 today slot a1 p (Or.inl (by rw [hfind]; rfl)),
      processPair_of_settled ok2 today slot a2 p
        (Or.inl (by rw [← hs, hfind]; rfl))]
    exact ⟨hs, hc⟩

/-- Oracle independence lifted to a slot's pair fold. -/
theorem foldl_processPair_oracle_resp (ok1 ok2 : GroupNotification → Bool) (today : String)
    (slot : SlotDef) (pairs : List (Nat × Nat)) (a1 a2 : AggResult)
    (hs : a1.store = a2.store) (hc : a1.calls.map Prod.fst = a2.calls.map Prod.fst) :
    (pairs.foldl (processPair ok1 today slot) a1).store
      = (pairs.foldl (processPair ok2 today slot) a2).store ∧
    (pairs.foldl (processPair ok1 today slot) a1).calls.map Prod.fst
      = (pairs.foldl (processPair ok2 today slot) a2).calls.map Prod.fst := by
  induction pairs generalizing a1 a2 with
  | nil => exact ⟨hs, hc⟩
  | cons q t ih =>
    have h1 := processPair_oracle_resp ok1 ok2 today slot a1 a2 q hs hc
    exact ih _ _ h1.1 h1.2

/-- Oracle independence lifted to one slot iteration. -/
theorem processSlot_oracle_resp (ok1 ok2 : GroupNotification → Bool) (now : Int) (today : String)
    (a1 a2 : AggResult) (slot : SlotDef)
    (hs : a1.store = a2.store) (hc : a1.calls.map Prod.fst = a2.calls.map Prod.fst) :
    (processSlot ok1 now today a1 slot).store = (processSlot ok2 now today a2 slot).store ∧
    (processSlot ok1 now today a1 slot).calls.map Prod.fst
      = (processSlot ok2 now today a2 slot).calls.map Prod.fst := by
  rw [processSlot, processSlot]
  split
  · rw [hs]
    exact foldl_processPair_oracle_resp ok1 ok2 today slot _ a1 a2 hs hc
  · exact ⟨hs, hc⟩

/-- C1: aggregation is idempotent — for a (restaurant, building, slot, date)
key with no GroupOrder yet, whose order deadline has passed, with a pending
order and resolvable referential data, one aggregation sweep creates exactly
one GroupOrder for the key, and running the sweep again with no intervening
order changes leaves the store unchanged (the existence guard skips every
key), so there is still exactly one GroupOrder, not two. -/
theorem aggregate_twice_creates_exactly_one (sendOk1 sendOk2 : GroupNotification → Bool)
    (slots : List SlotDef) (now : Int) (today : String) (st : Store) (slot : SlotDef) (r b : Nat)
    (hslot : slot ∈ slots) (hdl : isDeadlinePassedForSlot slot.id now = true)
    (h0 : countGroupOrdersForKey st.groupOrders r b slot.id today = 0)
    (hpend : findPendingForGroup st.orders slot.id b r today ≠ [])
    (hr : (restaurantFindById st.restaurants r).isSome)
    (hb : (buildingFindById st.buildings b).isSome) :
    countGroupOrdersForKey (processSlotDeadlines sendOk1 slots now today st).store.groupOrders
      r b slot.id today = 1 ∧
    (processSlotDeadlines sendOk2 slots now today
        (processSlotDeadlines sendOk1 slots now today st).store).store
      = (processSlotDeadlines sendOk1 slots now today st).store := by
  constructor
  · apply le_antisymm
    · rw [processSlotDeadlines]
      exact run_countKey_le_one sendOk1 slots now today ⟨st, []⟩ r b slot.id today (by rw [h0]; omega)
    · rw [processSlotDeadlines]
      exact run_countKey_ge_one sendOk1 slots now today ⟨st, []⟩ slot r b hslot hdl hpend hr hb
  · rw [aggregation_idempotent_state]

/-- Witness: three pending orders for (1, 1, "13:00", day0) at `now = 631`. -/
theorem aggregate_twice_creates_exactly_one_witness :
    countGroupOrdersForKey
      (processSlotDeadlines sendAlwaysOk [slot13] 631 day0 threeOrdersStore).store.groupOrders
      1 1 slot13.id day0 = 1 ∧
    (processSlotDeadlines sendAlwaysOk [slot13] 631 day0
        (processSlotDeadlines sendAlwaysOk [slot13] 631 day0 threeOrdersStore).store).store
      = (processSlotDeadlines sendAlwaysOk [slot13] 631 day0 threeOrdersStore).store :=
  aggregate_twice_creates_exactly_one sendAlwaysOk sendAlwaysOk [slot13] 631 day0
    threeOrdersStore slot13 1 1 (by simp) (by decide) (by decide) (by decide) (by decide) (by decide)

/-- C5: when the aggregation sweep processes a key past its deadline with a
non-empty pending order list, no existing GroupOrder, and resolvable
restaurant and building rows, it creates exactly one GroupOrder with status
`pending_restaurant` and makes one `sendGroupOrder` call whose `totalAmount`
is the sum of the pending orders' `total_price` and whose `participantCount`
is the number of pending orders. -/
theorem aggregation_creates_group_order_and_notification (sendOk : GroupNotification → Bool)
    (today : String) (slot : SlotDef) (acc : AggResult) (r b : Nat)
    (hnone : findByRestaurantAndSlot acc.store.groupOrders r b slot.id today = none)
    (hne : findPendingForGroup acc.store.orders slot.id b r today ≠ [])
    (rest : Restaurant) (hr : restaurantFindById acc.store.restaurants r = some rest)
    (bld : Building) (hb : buildingFindById acc.store.buildings b = some bld) :
    (processPair sendOk today slot acc (r, b)).store.groupOrders =
      acc.store.groupOrders ++ [newGroupOrder acc.store r b slot.id today] ∧
    (newGroupOrder acc.store r b slot.id today).status = .pending_restaurant ∧
    ∃ notif, (processPair sendOk today slot acc (r, b)).calls = acc.calls ++ [(notif, sendOk notif)] ∧
      notif.totalAmount
        = ((findPendingForGroup acc.store.orders slot.id b r today).map Order.total_price).sum ∧
      notif.participantCount = (findPendingForGroup acc.store.orders slot.id b r today).length := by
  rw [processPair_creates sendOk today slot acc (r, b) hnone hne rest hr bld hb]
  refine ⟨rfl, rfl, newNotification acc.store rest bld slot.id today r b, rfl, ?_, rfl⟩
  simp only [newNotification]
  exact foldl_add_total_price _

/-- Witness: totals 100, 150, 200 give `totalAmount = 450` and
`participantCount = 3`. -/
theorem aggregation_creates_group_order_and_notification_witness :
    ((processPair sendAlwaysOk day0 slot13 ⟨threeOrdersStore, []⟩ (1, 1)).store.groupOrders =
      threeOrdersStore.groupOrders ++ [newGroupOrder threeOrdersStore 1 1 slot13.id day0] ∧
    (newGroupOrder threeOrdersStore 1 1 slot13.id day0).status = .pending_restaurant ∧
    ∃ notif, (processPair sendAlwaysOk day0 slot13 ⟨threeOrdersStore, []⟩ (1, 1)).calls =
        [] ++ [(notif, sendAlwaysOk notif)] ∧
      notif.totalAmount
        = ((findPendingForGroup threeOrdersStore.orders slot13.id 1 1 day0).map Order.total_price).sum ∧
      notif.participantCount = (findPendingForGroup threeOrdersStore.orders slot13.id 1 1 day0).length) ∧
    ((findPendingForGroup threeOrdersStore.orders slot13.id 1 1 day0).map Order.total_price).sum = 450 ∧
    (findPendingForGroup threeOrdersStore.orders slot13.id 1 1 day0).length = 3 :=
  ⟨aggregation_creates_group_order_and_notification sendAlwaysOk day0 slot13
      ⟨threeOrdersStore, []⟩ 1 1 (by decide) (by decide) ⟨1, 77, "RestA"⟩ (by decide)
      ⟨1, "B1"⟩ (by decide),
    by decide, by decide⟩

/-- C7: a failing `sendGroupOrder` call is caught and logged and nothing
else: the store after the sweep — including every created GroupOrder — and
the sequence of notification payloads attempted for the remaining pairs are
the same whatever subset of calls fails. -/
theorem notification_failure_does_not_roll_back (sendOk1 sendOk2 : GroupNotification → Bool)
    (slots : List SlotDef) (now : Int) (today : String) (st : Store) :
    (processSlotDeadlines sendOk1 slots now today st).store
      = (processSlotDeadlines sendOk2 slots now today st).store ∧
    (processSlotDeadlines sendOk1 slots now today st).calls.map Prod.fst
      = (processSlotDeadlines sendOk2 slots now today st).calls.map Prod.fst := by
  rw [processSlotDeadlines, processSlotDeadlines]
  have h : ∀ (ts : List SlotDef) (a1 a2 : AggResult), a1.store = a2.store →
      a1.calls.map Prod.fst = a2.calls.map Prod.fst →
      (ts.foldl (processSlot sendOk1 now today) a1).store
        = (ts.foldl (processSlot sendOk2 now today) a2).store ∧
      (ts.foldl (processSlot sendOk1 now today) a1).calls.map Prod.fst
        = (ts.foldl (processSlot sendOk2 now today) a2).calls.map Prod.fst := by
    intro ts
    induction ts with
    | nil => intro a1 a2 hs hc; exact ⟨hs, hc⟩
    | cons q t ih =>
      intro a1 a2 hs hc
      have h1 := processSlot_oracle_resp sendOk1 sendOk2 now today a1 a2 q hs hc
      exact ih _ _ h1.1 h1.2
  exact h slots ⟨st, []⟩ ⟨st, []⟩ rfl rfl

/-- C3: the quorum sweep body is a trichotomy on the reservation count of a
key: zero reservations — no action; quorum reached — no action; otherwise it
deletes exactly the key's reservations (orders, group orders and users are
untouched) and returns the telegram identity of every affected user that has
a user row, for notification. -/
theorem lobby_quorum_trichotomy (minParticipants : Int) (st : Store) (b r : Nat)
    (slotId today : String) :
    (countReservations st.reservations b r slotId today = 0 →
      processLobbyKey minParticipants st b r slotId today = (st, [])) ∧
    ((countReservations st.reservations b r slotId today : Int) ≥ minParticipants →
      processLobbyKey minParticipants st b r slotId today = (st, [])) ∧
    (0 < countReservations st.reservations b r slotId today →
      (countReservations st.reservations b r slotId today : Int) < minParticipants →
      (processLobbyKey minParticipants st b r slotId today).1.reservations
        = st.reservations.filter (fun v => !reservationKeyMatch b r slotId today v) ∧
      countReservations (processLobbyKey minParticipants st b r slotId today).1.reservations
        b r slotId today = 0 ∧
      (processLobbyKey minParticipants st b r slotId today).1.orders = st.orders ∧
      (processLobbyKey minParticipants st b r slotId today).1.groupOrders = st.groupOrders ∧
      (processLobbyKey minParticipants st b r slotId today).1.users = st.users ∧
      (∀ v ∈ st.reservations, reservationKeyMatch b r slotId today v = true →
        ∀ u : User, st.users.find? (fun u' => decide (u'.id = v.user_id)) = some u →
          u.telegram_user_id ∈ (processLobbyKey minParticipants st b r slotId today).2)) := by
  refine ⟨?_, ?_, ?_⟩
  · intro h0
    rw [processLobbyKey]
    split
    · rfl
    · simp [h0]
  · intro hge
    rw [processLobbyKey, if_pos hge]
  · intro hpos hlt
    have hcond : ¬ ((countReservations st.reservations b r slotId today : Int) ≥ minParticipants) := by
      omega
    have hne0 : ¬ (countReservations st.reservations b r slotId today = 0) := by omega
    have hmid : processLobbyKey minParticipants st b r slotId today =
        ({ st with reservations :=
            st.reservations.filter (fun v => !reservationKeyMatch b r slotId today v) },
          (st.reservations.filter (reservationKeyMatch b r slotId today)).filterMap
            (fun v => (st.users.find? (fun u => decide (u.id = v.user_id))).map
              User.telegram_user_id)) := by
      rw [processLobbyKey, if_neg hcond, if_neg hne0, deleteReservationsForSlot]
    rw [hmid]
    refine ⟨rfl, ?_, rfl, rfl, rfl, ?_⟩
    · simp only [countReservations, List.filter_filter]
      rw [List.length_eq_zero, List.filter_eq_nil_iff]
      intro v hv
      cases h : reservationKeyMatch b r slotId today v <;> simp [h]
    · intro v hv hkey u hu
      simp only [List.mem_filterMap]
      exact ⟨v, List.mem_filter.mpr ⟨hv, hkey⟩, by rw [hu]; rfl⟩

/-- Witness: `minLobbyParticipants = 2` and one reservation past the
deadline: cancelled, user 999 notified. -/
theorem lobby_quorum_trichotomy_witness :
    (0 : Int) < (countReservations lobbyStore.reservations 1 1 "13:00" day0 : Int) ∧
    (countReservations lobbyStore.reservations 1 1 "13:00" day0 : Int) < 2 ∧
    (processLobbyKey 2 lobbyStore 1 1 "13:00" day0).1.reservations
      = lobbyStore.reservations.filter (fun v => !reservationKeyMatch 1 1 "13:00" day0 v) ∧
    countReservations (processLobbyKey 2 lobbyStore 1 1 "13:00" day0).1.reservations
      1 1 "13:00" day0 = 0 ∧
    (999 : Int) ∈ (processLobbyKey 2 lobbyStore 1 1 "13:00" day0).2 := by
  have h := (lobby_quorum_trichotomy 2 lobbyStore 1 1 "13:00" day0).2.2
    (by decide) (by decide)
  exact ⟨by decide, by decide, h.1, h.2.1,
    h.2.2.2.2.2 ⟨1, 1, "13:00", day0, 5⟩ (by decide) (by decide) ⟨5, 999⟩ (by decide)⟩

/-- C8: after an order is set to `cancelled`, if no other order of the user
for the (building, restaurant, slot, date) key is in an active status,
`findActiveByUserAndSlot` returns none and `POST /api/orders` accepts a new
order for the same key instead of answering the duplicate error. -/
theorem cancelled_order_allows_new_order (st : Store) (cancelId u b r : Nat)
    (slot d : String)
    (h : ∀ o ∈ st.orders, activeByUserAndSlotRow u b r slot d o = true → o.id = cancelId) :
    findActiveByUserAndSlot (updateOrderStatus st.orders cancelId .cancelled) u b r slot d
      = none ∧
    ∀ (newId : Nat) (items : String) (tp : Int),
      ∃ o, (postOrder { st with orders := updateOrderStatus st.orders cancelId .cancelled }
        newId u r b items tp slot d).1 = .created o := by
  have hnone : findActiveByUserAndSlot (updateOrderStatus st.orders cancelId .cancelled)
      u b r slot d = none := by
    rw [findActiveByUserAndSlot, List.find?_eq_none]
    intro o' hmem
    rw [updateOrderStatus] at hmem
    obtain ⟨o, hm, rfl⟩ := List.mem_map.mp hmem
    by_cases hid : o.id = cancelId
    · simp [hid, activeByUserAndSlotRow, isActiveStatus]
    · simp only [hid, if_false]
      intro hrow
      exact hid (h o hm hrow)
  refine ⟨hnone, ?_⟩
  intro newId items tp
  refine ⟨⟨newId, u, r, b, items, tp, slot, some d, d, .pending⟩, ?_⟩
  simp [postOrder, hnone]

/-- Witness: cancelling order 1 of user 10 frees the slot for a new order. -/
theorem cancelled_order_allows_new_order_witness :
    findActiveByUserAndSlot (updateOrderStatus threeOrdersStore.orders 1 .cancelled)
      10 1 1 "13:00" day0 = none ∧
    ∃ o, (postOrder
      { threeOrdersStore with orders := updateOrderStatus threeOrdersStore.orders 1 .cancelled }
      4 10 1 1 "[]" 120 "13:00" day0).1 = .created o := by
  have h := cancelled_order_allows_new_order threeOrdersStore 1 10 1 1 "13:00" day0 (by decide)
  exact ⟨h.1, h.2 4 "[]" 120⟩

/-- C10: `POST /api/lobby/join` rejects strictly after the lobby deadline
`max(slotMinutes - lobbyLeadMinutes, 0)` with an error and an unchanged
store, and still accepts at `nowMinutes` equal to the deadline (for an
existing user), inserting the reservation. -/
theorem lobby_join_deadline_boundary (st : Store) (tg : Int) (b r : Nat)
    (slot : String) (now : Int) (today : String) (s : Int)
    (hs : toMinutes slot = some s) :
    (now > deadlineMinutesOf s lobbyLeadMinutes →
      lobbyJoin st tg b r slot now today = (.deadlinePassed, st)) ∧
    (now = deadlineMinutesOf s lobbyLeadMinutes →
      ∀ u : User, userFindByTelegramId st.users tg = some u →
        lobbyJoin st tg b r slot now today =
          (.joined,
            { st with reservations := addReservation st.reservations b r slot today u.id })) := by
  constructor
  · intro hgt
    rw [lobbyJoin, hs]
    simp [hgt]
  · intro heq u hu
    rw [lobbyJoin, hs]
    simp [heq, hu]

/-- Witness: slot "13:00" has lobby deadline 630; `now = 631` is rejected
and `now = 630` is accepted. -/
theorem lobby_join_deadline_boundary_witness :
    lobbyJoin lobbyStore 999 1 1 "13:00" 631 day0 = (.deadlinePassed, lobbyStore) ∧
    lobbyJoin lobbyStore 999 1 1 "13:00" 630 day0 =
      (.joined,
        { lobbyStore with reservations := addReservation lobbyStore.reservations 1 1 "13:00" day0 5 }) :=
  ⟨(lobby_join_deadline_boundary lobbyStore 999 1 1 "13:00" 631 day0 780 (by decide)).1
      (by decide),
    (lobby_join_deadline_boundary lobbyStore 999 1 1 "13:00" 630 day0 780 (by decide)).2
      (by decide) ⟨5, 999⟩ (by decide)⟩

/-- A throwing fold whose body never throws is the plain fold. -/
theorem foldlExcept_ok {α β ε : Type} (f : β → α → β) (g : β → α → Except ε β)
    (h : ∀ b a, g b a = .ok (f b a)) (b : β) (l : List α) :
    foldlExcept g b l = .ok (l.foldl f b) := by
  induction l generalizing b with
  | nil => rfl
  | cons a t ih => rw [foldlExcept, h, List.foldl_cons]; exact ih _

/-- With a healthy store the throwing lobby sweep is the pure lobby sweep. -/
theorem lobbyExc_noFail (minP : Int) (slots : List SlotDef) (now : Int) (today : String)
    (st : Store) :
    processLobbyDeadlinesExc noFail minP slots now today st
      = .ok (processLobbyDeadlines minP slots now today st) := by
  rw [processLobbyDeadlinesExc, processLobbyDeadlines]
  apply foldlExcept_ok
  intro b a
  split
  · apply foldlExcept_ok
    intro b2 a2
    simp [noFail]
  · rfl

/-- With a healthy store the throwing aggregation sweep is the pure one. -/
theorem aggExc_noFail (sendOk : GroupNotification → Bool) (slots : List SlotDef) (now : Int)
    (today : String) (st : Store) :
    processSlotDeadlinesExc noFail sendOk slots now today st
      = .ok (processSlotDeadlines sendOk slots now today st) := by
  rw [processSlotDeadlinesExc, processSlotDeadlines]
  apply foldlExcept_ok
  intro b a
  rw [processSlot]
  split
  · apply foldlExcept_ok
    intro b2 a2
    simp [noFail]
  · rfl

/-- C6 counterexample: the aggregation loop has no per-pair try/catch.  With
a store that throws while aggregating (restaurant 1, building 1), the sweep
aborts before reaching (restaurant 2, building 2) — the error value carries
the untouched store — although that second pair met every aggregation
condition and an error-free sweep (last conjunct) creates its GroupOrder in
the same tick.  This refutes the claim that a store failure on one pair is
caught and the sweep continues with the next pair. -/
theorem store_error_not_isolated_per_pair_cex :
    processSlotDeadlinesExc failOn11 sendAlwaysOk [slot13] 631 day0 twoPairsStore
      = .error ⟨⟨twoPairsStore, []⟩, "13:00", 1, 1⟩ ∧
    findByRestaurantAndSlot twoPairsStore.groupOrders 2 2 slot13.id day0 = none ∧
    findPendingForGroup twoPairsStore.orders slot13.id 2 2 day0 ≠ [] ∧
    (restaurantFindById twoPairsStore.restaurants 2).isSome = true ∧
    (buildingFindById twoPairsStore.buildings 2).isSome = true ∧
    isDeadlinePassedForSlot slot13.id 631 = true ∧
    countGroupOrdersForKey
      (processSlotDeadlines sendAlwaysOk [slot13] 631 day0 twoPairsStore).store.groupOrders
      2 2 slot13.id day0 = 1 := by decide

/-- C6 amended: store failures during the aggregation sweep are caught only
at the whole-sweep granularity by the tick handler: `runAll` attaches a
catch to the sweep's promise, so the tick always returns normally when the
lobby sweep is healthy, and on a store failure the tick result carries the
partially committed store and the logged failure site; the pairs after the
failure site are simply not aggregated on that tick. -/
theorem store_error_caught_at_tick_level (aggFail : String → Nat → Nat → Bool)
    (sendOk : GroupNotification → Bool) (minP : Int) (slots : List SlotDef) (now : Int)
    (today : String) (st : Store) :
    (∃ t : TickResult, runAll noFail aggFail sendOk minP slots now today st = .ok t) ∧
    (∀ e : SweepError AggResult,
      processSlotDeadlinesExc aggFail sendOk slots now today
          (processLobbyDeadlines minP slots now today st).1 = .error e →
      runAll noFail aggFail sendOk minP slots now today st =
        .ok ⟨e.committedState.store, (processLobbyDeadlines minP slots now today st).2,
          e.committedState.calls, some (e.slotId, e.buildingId, e.restaurantId)⟩) := by
  rcases hsplit : processLobbyDeadlines minP slots now today st with ⟨st1, cancels⟩
  constructor
  · rw [runAll, lobbyExc_noFail, hsplit]
    rcases hagg : processSlotDeadlinesExc aggFail sendOk slots now today st1 with e | res
    · simp only [hagg]
      exact ⟨_, rfl⟩
    · simp only [hagg]
      exact ⟨_, rfl⟩
  · intro e he
    simp only at he ⊢
    rw [runAll, lobbyExc_noFail, hsplit]
    simp only [he]

/-- Witness: the failing sweep of the counterexample is swallowed by the
tick handler with the untouched store and a logged failure site. -/
theorem store_error_caught_at_tick_level_witness :
    runAll noFail failOn11 sendAlwaysOk 1 [slot13] 631 day0 twoPairsStore =
      .ok ⟨twoPairsStore, [], [], some ("13:00", 1, 1)⟩ ∧
    (∃ t : TickResult,
      runAll noFail failOn11 sendAlwaysOk 1 [slot13] 631 day0 twoPairsStore = .ok t) := by
  have h := store_error_caught_at_tick_level failOn11 sendAlwaysOk 1 [slot13] 631 day0
    twoPairsStore
  refine ⟨?_, h.1⟩
  have h2 := h.2 ⟨⟨twoPairsStore, []⟩, "13:00", 1, 1⟩ (by decide)
  have hpure : processLobbyDeadlines 1 [slot13] 631 day0 twoPairsStore
      = (twoPairsStore, []) := by decide
  rw [hpure] at h2
  exact h2

/-- C2 counterexample: `runAll` calls the synchronous lobby sweep unguarded
before attaching any catch, so a store exception inside the lobby sweep
escapes the tick handler (`runAll` itself evaluates to that error) and the
aggregation sweep does not run on that tick, although it had work to do: an
exception-free tick creates a GroupOrder for (1, 1).  This refutes the claim
that an exception in the lobby sweep cannot prevent the aggregation sweep
and that no exception escapes the tick handler. -/
theorem lobby_exception_blocks_aggregation_cex :
    runAll failOn11 noFail sendAlwaysOk 2 [slot13] 631 day0 lobbyStore
      = .error ⟨lobbyStore, "13:00", 1, 1⟩ ∧
    isLobbyDeadlinePassed slot13.id 631 = true ∧
    countGroupOrdersForKey lobbyStore.groupOrders 1 1 slot13.id day0 = 0 ∧
    countGroupOrdersForKey
      (processSlotDeadlines sendAlwaysOk [slot13] 631 day0 lobbyStore).store.groupOrders
      1 1 slot13.id day0 = 1 := by decide

/-- C2 amended: the two sweeps are guarded differently.  An exception in the
asynchronous aggregation sweep is caught by the `.catch` on its promise, so
whenever the lobby sweep returns, the tick returns normally whatever the
aggregation store does; but the synchronous lobby sweep has no guard, so an
exception inside it escapes `runAll` unchanged and the aggregation sweep is
not reached on that tick. -/
theorem runAll_exception_granularity (lobbyFail aggFail : String → Nat → Nat → Bool)
    (sendOk : GroupNotification → Bool) (minP : Int) (slots : List SlotDef) (now : Int)
    (today : String) (st : Store) :
    (∀ e : SweepError Store,
      processLobbyDeadlinesExc lobbyFail minP slots now today st = .error e →
      runAll lobbyFail aggFail sendOk minP slots now today st = .error e) ∧
    (∀ res : Store × List (Int × String),
      processLobbyDeadlinesExc lobbyFail minP slots now today st = .ok res →
      ∃ t : TickResult, runAll lobbyFail aggFail sendOk minP slots now today st = .ok t) := by
  constructor
  · intro e he
    rw [runAll]
    simp only [he]
  · rintro ⟨st1, cancels⟩ hok
    rw [runAll]
    simp only [hok]
    rcases hagg : processSlotDeadlinesExc aggFail sendOk slots now today st1 with e | res
    · simp only [hagg]
      exact ⟨_, rfl⟩
    · simp only [hagg]
      exact ⟨_, rfl⟩

/-- Witness: a lobby store failure escapes the tick; with a healthy lobby
sweep the tick returns normally. -/
theorem runAll_exception_granularity_witness :
    runAll failOn11 noFail sendAlwaysOk 2 [slot13] 631 day0 lobbyStore
      = .error ⟨lobbyStore, "13:00", 1, 1⟩ ∧
    (∃ t : TickResult,
      runAll noFail noFail sendAlwaysOk 2 [slot13] 631 day0 lobbyStore = .ok t) :=
  ⟨(runAll_exception_granularity failOn11 noFail sendAlwaysOk 2 [slot13] 631 day0
      lobbyStore).1 ⟨lobbyStore, "13:00", 1, 1⟩ (by decide),
    (runAll_exception_granularity noFail noFail sendAlwaysOk 2 [slot13] 631 day0
      lobbyStore).2 (processLobbyDeadlines 2 [slot13] 631 day0 lobbyStore)
      (lobbyExc_noFail 2 [slot13] 631 day0 lobbyStore)⟩

end RestServer
